import Mathlib

/-!
Verification development for the zod-template schema compiler
(`src/server/templates/zod.ts` together with its `_common` filter helpers).

The TypeScript source is shallowly embedded below: every pure function of the
template becomes a Lean function of the same name, mutable-state effects
(`Array.prototype.sort` mutating its receiver) are modelled by explicitly
returning the post-call value of the mutated array, and the two places where
the source can throw at runtime (indexing the grouped-columns record with an
id that has no entry, then calling `.map` on `undefined`) are modelled with
`Option`, `none` standing for the aborted pass.

Modelling conventions, stated once here:
* `localeCompare`-based sorting is modelled as stable insertion sort under
  code-point order on the name (`strLe`); the spec itself fixes only "a
  total, deterministic ordering - e.g. byte/codepoint order".
* JavaScript object key iteration order is modelled as insertion order
  (association lists); this is exact for the non-integer-like keys produced
  here.
* `prettier.format` is an external collaborator (the generic text
  beautifier); `apply` below returns the document handed to it.
* `console.debug` diagnostics go to the external observability sink and have
  no effect on the computed value, so they vanish in the embedding.
-/

/-- Column metadata as consumed by the template: exactly the fields the
template reads (`table_id`, `name`, `format`, `data_type`, `is_nullable`,
`is_identity`, `identity_generation`, `default_value`, `enums`, `comment`,
`is_updatable`). `identity_generation` is `'ALWAYS' | 'BY DEFAULT' | null`,
`default_value` and `comment` are nullable. -/
structure PostgresColumn where
  table_id : Nat
  name : String
  format : String
  data_type : String
  is_nullable : Bool
  is_identity : Bool
  identity_generation : Option String
  default_value : Option String
  enums : List String
  comment : Option String
  is_updatable : Bool
  deriving DecidableEq, Repr

/-- Table header (`id`, `schema`, `name`); the template reads no other table
field. Views and materialized views are consumed through the same three
fields, so they share this shape. -/
structure PostgresTable where
  id : Nat
  schema : String
  name : String
  deriving DecidableEq, Repr

/-- Views are consumed by the template through the same `id`/`schema`/`name`
fields as tables (`filterFromSchema<any>([...views, ...materializedViews])`). -/
abbrev PostgresView := PostgresTable

/-- Materialized views, likewise consumed through `id`/`schema`/`name`. -/
abbrev PostgresMaterializedView := PostgresTable

/-- Schema: only the `name` is read. -/
structure PostgresSchema where
  name : String
  deriving DecidableEq, Repr

/-- One function argument: `{ name, mode, type_id, has_default }`. -/
structure PostgresFunctionArg where
  name : String
  mode : String
  type_id : Nat
  has_default : Bool
  deriving DecidableEq, Repr

/-- Function metadata as consumed by the template: `schema`, `name`, ordered
`args`, `return_type_id`, and the raw `argument_types` string that
`writeSchema` compares against table names. -/
structure PostgresFunction where
  schema : String
  name : String
  args : List PostgresFunctionArg
  return_type_id : Nat
  argument_types : String
  deriving DecidableEq, Repr

/-- Type metadata: `id`, `schema`, `name`, `format`, `enums`. An array type
is one whose `name` begins with the `_` sigil. -/
structure PostgresType where
  id : Nat
  schema : String
  name : String
  format : String
  enums : List String
  deriving DecidableEq, Repr

/-- Relationships are pass-through input: the template never reads them.
Only identity matters here. -/
structure PostgresRelationship where
  id : Nat
  deriving DecidableEq, Repr

/-- The input bundle of `apply` (`TemplateProps` in `server/types.ts`). -/
structure TemplateProps where
  schemas : List PostgresSchema
  tables : List PostgresTable
  views : List PostgresView
  materializedViews : List PostgresMaterializedView
  columns : List PostgresColumn
  relationships : List PostgresRelationship
  functions : List PostgresFunction
  types : List PostgresType
  arrayTypes : List PostgresType
  detectOneToOneRelationships : Bool
  deriving DecidableEq, Repr

/-- Code-point comparison on character lists: `charListLe a b` holds when
`a` is lexicographically at most `b`. This models the ascending order that
`(a, b) => a.localeCompare(b)` induces (the spec fixes only that the name
order is some total, deterministic order such as code-point order). -/
def charListLe : List Char → List Char → Bool
  | [], _ => true
  | _ :: _, [] => false
  | a :: as, b :: bs =>
      if a.toNat < b.toNat then true
      else if b.toNat < a.toNat then false
      else charListLe as bs

/-- Code-point comparison on strings; see `charListLe`. -/
def strLe (a b : String) : Bool := charListLe a.data b.data

/-- `escapeString` from the source: replaces every `"` with `\"`. -/
def escapeString (s : String) : String :=
  String.mk (s.data.foldr (fun c acc => (if c = '"' then ['\\', '"'] else [c]) ++ acc) [])

/-- One character of `JSON.stringify` string escaping (quote and backslash;
control-character escapes are omitted - no name emitted by the template
relies on them). -/
def jsonEscapeChar (c : Char) : List Char :=
  if c = '"' then ['\\', '"'] else if c = '\\' then ['\\', '\\'] else [c]

/-- JavaScript `JSON.stringify` applied to a string: the escaped text in
double quotes. -/
def jsonStringify (s : String) : String :=
  "\"" ++ String.mk (s.data.foldr (fun c acc => jsonEscapeChar c ++ acc) []) ++ "\""

/-- `joinWithLeading` from the source: empty for `[]`, otherwise the joiner
followed by `arr.join(join)`. -/
def joinWithLeading (arr : List String) (j : String) : String :=
  match arr with
  | [] => ""
  | _ => j ++ String.intercalate j arr

/-- `uniq` from the source: `[...new Set(arr)]`, i.e. duplicates removed
keeping first occurrences, modelled by the same left fold a `Set` performs
on insertion. -/
def uniq {α : Type} [DecidableEq α] (arr : List α) : List α :=
  arr.foldl (fun acc x => if x ∈ acc then acc else acc ++ [x]) []

/-- The non-array part of `basicZodType`: the fixed category sets tried in
source order, falling through to `enumFallback`. -/
def nonArrayZodType (s : String) (enumFallback : String) : String :=
  if s ∈ ["bool", "boolean"] then "z.boolean()"
  else if s ∈ ["int2", "int4", "int8", "float4", "float8", "numeric", "integer", "bigint",
      "oid"] then "z.number()"
  else if s ∈ ["json", "jsonb"] then "jsonSchema"
  else if s ∈ ["bytea", "bpchar", "varchar", "text", "citext", "uuid", "vector", "inet",
      "cidr", "macaddr", "macaddr8", "character varying"] then "z.string()"
  else if s ∈ ["date", "time", "timetz", "timestamp", "timestamptz",
      "timestamp with time zone"] then "z.string()"
  else enumFallback

/-- Recursion worker for `basicZodType` over the character list of the type
name. `pgType.startsWith('_')` is precisely "the character list begins with
`'_'`", and `pgType.substring(1)` is its tail, so the source's string
recursion becomes structural recursion here. In the array branch the source
recurses with `'z.unknown()'` as `enumFallback` (and the `fallback`
parameter left at its default `'z.unknown()'`) and then wraps a truthy -
i.e. non-empty - result in `z.array(...)`, returning `fallback` otherwise. -/
def basicZodTypeGo : List Char → String → String → String
  | [], enumFallback, _ => nonArrayZodType (String.mk []) enumFallback
  | c :: cs, enumFallback, fallback =>
      if c = '_' then
        let subtype := basicZodTypeGo cs "z.unknown()" "z.unknown()"
        if subtype ≠ "" then "z.array(" ++ subtype ++ ")" else fallback
      else nonArrayZodType (String.mk (c :: cs)) enumFallback

/-- `basicZodType(pgType, enumFallback = 'z', fallback = 'z.unknown()')`
from the source. -/
def basicZodType (pgType : String) (enumFallback : String := "z")
    (fallback : String := "z.unknown()") : String :=
  basicZodTypeGo pgType.data enumFallback fallback

/-- The subnet-aware IP pattern the source attaches to `inet` columns
(zod's own `ip` method does not check for subnets). -/
def IP_REGEX : String :=
  "^((((25[0-5]|(2[0-4]|1\x7b0,1\x7d[0-9])\x7b0,1\x7d[0-9])\\.)\x7b3,3\x7d(25[0-5]|(2[0-4]|1\x7b0,1\x7d[0-9])\x7b0,1\x7d[0-9]))|((([0-9a-fA-F]\x7b1,4\x7d:)\x7b7,7\x7d[0-9a-fA-F]\x7b1,4\x7d|([0-9a-fA-F]\x7b1,4\x7d:)\x7b1,7\x7d:|([0-9a-fA-F]\x7b1,4\x7d:)\x7b1,6\x7d:[0-9a-fA-F]\x7b1,4\x7d|([0-9a-fA-F]\x7b1,4\x7d:)\x7b1,5\x7d(:[0-9a-fA-F]\x7b1,4\x7d)\x7b1,2\x7d|([0-9a-fA-F]\x7b1,4\x7d:)\x7b1,4\x7d(:[0-9a-fA-F]\x7b1,4\x7d)\x7b1,3\x7d|([0-9a-fA-F]\x7b1,4\x7d:)\x7b1,3\x7d(:[0-9a-fA-F]\x7b1,4\x7d)\x7b1,4\x7d|([0-9a-fA-F]\x7b1,4\x7d:)\x7b1,2\x7d(:[0-9a-fA-F]\x7b1,4\x7d)\x7b1,5\x7d|[0-9a-fA-F]\x7b1,4\x7d:((:[0-9a-fA-F]\x7b1,4\x7d)\x7b1,6\x7d)|:((:[0-9a-fA-F]\x7b1,4\x7d)\x7b1,7\x7d|:)|fe80:(:[0-9a-fA-F]\x7b0,4\x7d)\x7b0,4\x7d%[0-9a-zA-Z]\x7b1,\x7d|::(ffff(:0\x7b1,4\x7d)\x7b0,1\x7d:)\x7b0,1\x7d((25[0-5]|(2[0-4]|1\x7b0,1\x7d[0-9])\x7b0,1\x7d[0-9])\\.)\x7b3,3\x7d(25[0-5]|(2[0-4]|1\x7b0,1\x7d[0-9])\x7b0,1\x7d[0-9])|([0-9a-fA-F]\x7b1,4\x7d:)\x7b1,4\x7d:((25[0-5]|(2[0-4]|1\x7b0,1\x7d[0-9])\x7b0,1\x7d[0-9])\\.)\x7b3,3\x7d(25[0-5]|(2[0-4]|1\x7b0,1\x7d[0-9])\x7b0,1\x7d[0-9]))))\\/[0-9]\x7b1,3\x7d$"

/-- `extractExtraZodMethods` from the source: the type-level refinements, in
source order - UUID validity, the plain date/time marker for `date`/`time`,
the offset-aware marker for the timestamp/timetz family, the enumerated
constraint for `USER-DEFINED` columns with values, the `inet` pattern, and
the description when `comment` is truthy (JavaScript truthiness: both `null`
and the empty string are skipped). -/
def extractExtraZodMethods (column : PostgresColumn) : List String :=
  (if column.format = "uuid" then ["uuid()"] else []) ++
  (if column.format ∈ ["date", "time"] then ["datetime()"] else []) ++
  (if column.format ∈ ["timetz", "timestamp", "timestamptz", "timestamp with time zone"] then
    ["datetime(\x7b offset: true \x7d)"] else []) ++
  (if column.data_type = "USER-DEFINED" ∧ column.enums ≠ [] then
    ["enum([" ++ String.intercalate ", " (column.enums.map (fun v => "\"" ++ v ++ "\"")) ++
      "] as const)"] else []) ++
  (if column.format = "inet" then ["regex(/" ++ IP_REGEX ++ "/)"] else []) ++
  (match column.comment with
   | some s => if s = "" then [] else ["describe(\"" ++ escapeString s ++ "\")"]
   | none => [])

/-- `extractGeneralZodMethods` from the source: `nullable()` when
`is_nullable`, and `optional()` when nullable, identity, or defaulted. -/
def extractGeneralZodMethods (column : PostgresColumn) : List String :=
  (if column.is_nullable then ["nullable()"] else []) ++
  (if column.is_nullable ∨ column.is_identity ∨ column.default_value ≠ none then
    ["optional()"] else [])

/-- `writeRowColumn` from the source: base type (enum fallback `z.string()`
when no extra methods, `z` otherwise), the extra methods, and `.nullable()`
for nullable columns. -/
def writeRowColumn (column : PostgresColumn) : String :=
  let extra := joinWithLeading (extractExtraZodMethods column) "."
  basicZodType column.format (if extra = "" then "z.string()" else "z") ++ extra ++
    (if column.is_nullable then ".nullable()" else "")

/-- `writeColumn` from the source (used by insert and view contexts): base
type, extra methods, then the general presence methods. -/
def writeColumn (column : PostgresColumn) : String :=
  let extra := joinWithLeading (extractExtraZodMethods column) "."
  let general := joinWithLeading (extractGeneralZodMethods column) "."
  basicZodType column.format (if extra = "" then "z.string()" else "z") ++ extra ++ general

/-- `writeReadFunction` from the source: map the return type's `format` when
`return_type_id` resolves, else emit the bare text `unknown`. -/
def writeReadFunction (func : PostgresFunction) (types : List PostgresType) : String :=
  match types.find? (fun t => t.id = func.return_type_id) with
  | some t => basicZodType t.format "z.unknown()"
  | none => "unknown"

/-- The column fields of a row object: one entry per column, in the order
given. -/
def rowColumnEntries (columns : List PostgresColumn) : List String :=
  columns.map (fun column => "\"" ++ column.name ++ "\": " ++ writeRowColumn column)

/-- The computed-field entries of a row object: one entry per read function,
typed by `writeReadFunction`. -/
def rowFunctionEntries (readFunctions : List PostgresFunction) (types : List PostgresType) :
    List String :=
  readFunctions.map (fun func => "\"" ++ func.name ++ "\": " ++ writeReadFunction func types)

/-- `writeRowTable` from the source. -/
def writeRowTable (columns : List PostgresColumn) (readFunctions : List PostgresFunction)
    (types : List PostgresType) : String :=
  "z.object(\x7b\n        " ++ String.intercalate ",\n" (rowColumnEntries columns) ++
    ",\n        " ++ String.intercalate ",\n" (rowFunctionEntries readFunctions types) ++
    "\n    \x7d)"

/-- The `columns.filter((column) => column.identity_generation !== 'ALWAYS')`
step of `writeInsertTable`. -/
def insertTableColumns (columns : List PostgresColumn) : List PostgresColumn :=
  columns.filter (fun column => ¬ column.identity_generation = some "ALWAYS")

/-- The identical filter as written a second time inside `writeUpdateTable`. -/
def updateTableColumns (columns : List PostgresColumn) : List PostgresColumn :=
  columns.filter (fun column => ¬ column.identity_generation = some "ALWAYS")

/-- `writeInsertTable` from the source. -/
def writeInsertTable (columns : List PostgresColumn) : String :=
  "z.object(\x7b\n        " ++
    String.intercalate ",\n"
      ((insertTableColumns columns).map
        (fun column => "\"" ++ column.name ++ "\": " ++ writeColumn column)) ++
    ",\n    \x7d)"

/-- One field of the update object: extra methods as usual, and the general
methods with `'optional()'` appended and then de-duplicated by `uniq`. -/
def writeUpdateField (column : PostgresColumn) : String :=
  let extra := joinWithLeading (extractExtraZodMethods column) "."
  let general := joinWithLeading (uniq (extractGeneralZodMethods column ++ ["optional()"])) "."
  "\"" ++ column.name ++ "\"" ++ ": " ++
    basicZodType column.format (if extra = "" then "z.string()" else "z") ++ extra ++ general

/-- `writeUpdateTable` from the source. -/
def writeUpdateTable (columns : List PostgresColumn) : String :=
  "z.object(\x7b\n        " ++
    String.intercalate ",\n" ((updateTableColumns columns).map writeUpdateField) ++
    ",\n    \x7d)"

/-- `writeView` from the source: only `is_updatable` columns, names through
`JSON.stringify`. -/
def writeView (columns : List PostgresColumn) : String :=
  "z.object(\x7b\n        " ++
    String.intercalate ",\n"
      ((columns.filter (fun column => column.is_updatable)).map
        (fun column => jsonStringify column.name ++ ": " ++ writeColumn column)) ++
    "\n    \x7d)"

/-- `writeFunctionArg` from the source: array-type set first (strip the
sigil, map the element name, wrap in `z.array`), then the scalar type set,
then the opaque placeholder; `.optional()` appended whenever `has_default`. -/
def writeFunctionArg (arg : PostgresFunctionArg) (types arrayTypes : List PostgresType) :
    String :=
  match arrayTypes.find? (fun t => t.id = arg.type_id) with
  | some t =>
      "z.array(" ++ basicZodType (t.name.drop 1) "z.unknown()" ++ ")" ++
        (if arg.has_default then ".optional()" else "")
  | none =>
      match types.find? (fun t => t.id = arg.type_id) with
      | some t => basicZodType t.format "z.unknown()" ++
          (if arg.has_default then ".optional()" else "")
      | none => "z.unknown()" ++ (if arg.has_default then ".optional()" else "")

/-- `writeFunction` from the source: an object over the `mode === 'in'`
arguments only. -/
def writeFunction (func : PostgresFunction) (types arrayTypes : List PostgresType) : String :=
  let inArgs := func.args.filter (fun a => a.mode = "in")
  "z.object(\x7b\n        " ++
    String.intercalate ",\n"
      (inArgs.map (fun a => jsonStringify a.name ++ ": " ++ writeFunctionArg a types arrayTypes)) ++
    "\n    \x7d)"

/-- One step of the `reduce` that groups list elements by key: append to the
existing entry when the key is present, otherwise add a fresh entry at the
end (JavaScript `acc[k] ??= []; acc[k].push(curr)` over an insertion-ordered
object). -/
def addToGroups {κ α : Type} [DecidableEq κ] (key : α → κ) (acc : List (κ × List α)) (c : α) :
    List (κ × List α) :=
  if acc.any (fun p => p.1 = key c) then
    acc.map (fun p => if p.1 = key c then (p.1, p.2 ++ [c]) else p)
  else acc ++ [(key c, [c])]

/-- The grouping `reduce` itself, as an insertion-ordered association list. -/
def groupPairs {κ α : Type} [DecidableEq κ] (key : α → κ) (items : List α) :
    List (κ × List α) :=
  items.foldl (addToGroups key) []

/-- Property lookup on a grouped object: `acc[k]`, `none` for `undefined`. -/
def lookupGroup {κ α : Type} [DecidableEq κ] (m : List (κ × List α)) (k : κ) :
    Option (List α) :=
  (m.find? (fun p => p.1 = k)).map (fun p => p.2)

/-- One entry of the `functions:` object: a plain schema for a single
overload, a `z.union` over the overloads (in stored order) otherwise. -/
def writeFunctionGroupEntry (types arrayTypes : List PostgresType)
    (p : String × List PostgresFunction) : String :=
  let name := jsonStringify p.1
  match p.2 with
  | [f] => name ++ ": " ++ writeFunction f types arrayTypes
  | fns =>
      "\n                " ++ name ++ ": z.union([\n                    " ++
        String.intercalate ",\n" (fns.map (fun f => writeFunction f types arrayTypes)) ++
        "\n                ])\n            "

/-- `writeFunctions` from the source: group by exact name, then emit one
entry per group. -/
def writeFunctions (functions : List PostgresFunction) (types arrayTypes : List PostgresType) :
    String :=
  "\x7b\n        " ++
    String.intercalate ",\n"
      ((groupPairs (fun f => f.name) functions).map (writeFunctionGroupEntry types arrayTypes)) ++
    "\n    \x7d"

/-- `filterFromSchema` from `_common`: keep the schema's items, then sort by
name (`filter` makes a fresh array, so this sort mutates no input). -/
def filterFromSchema (items : List PostgresTable) (schemaName : String) : List PostgresTable :=
  List.insertionSort (fun a b => strLe a.name b.name = true)
    (items.filter (fun i => i.schema = schemaName))

/-- `filterSchemaFunctions` from `_common`: keep the schema's functions whose
input-mode (`in`/`inout`/`variadic`) arguments are all named or number
exactly one, then sort by name. -/
def filterSchemaFunctions (functions : List PostgresFunction) (schemaName : String) :
    List PostgresFunction :=
  List.insertionSort (fun a b => strLe a.name b.name = true)
    (functions.filter (fun func =>
      func.schema = schemaName ∧
        (let inArgs := func.args.filter (fun a => a.mode ∈ ["in", "inout", "variadic"])
         inArgs.length = 1 ∨ ¬ inArgs.any (fun a => a.name = ""))))

/-- `filterSchemaEnums` from `_common`: the schema's types with at least one
enum value, sorted by name. -/
def filterSchemaEnums (types : List PostgresType) (schemaName : String) : List PostgresType :=
  List.insertionSort (fun a b => strLe a.name b.name = true)
    (types.filter (fun t => t.schema = schemaName ∧ t.enums ≠ []))

/-- Option-valued `Array.prototype.map`: evaluates the body left-to-right
and aborts the whole traversal as soon as one element throws (`none`). -/
def mapMOpt {α β : Type} (f : α → Option β) : List α → Option (List β)
  | [] => some []
  | a :: l =>
      match f a, mapMOpt f l with
      | some b, some bs => some (b :: bs)
      | _, _ => none

/-- The in-place `columns.sort((a, b) => a.name.localeCompare(b.name))` at
the top of `apply`, modelled as a stable sort under code-point name order. -/
def sortColumnsByName (columns : List PostgresColumn) : List PostgresColumn :=
  List.insertionSort (fun a b => strLe a.name b.name = true) columns

/-- Because `Array.prototype.sort` sorts its receiver in place, the caller's
`columns` array holds exactly this value once `apply` has returned; `apply`
writes to no other input collection and to no entity. -/
def applyFinalColumns (columns : List PostgresColumn) : List PostgresColumn :=
  sortColumnsByName columns

/-- The grouping of the (sorted) columns by `table_id` computed once at the
top of `apply` and shared by every downstream writer. -/
def columnsByTableId (columns : List PostgresColumn) : List (Nat × List PostgresColumn) :=
  groupPairs (fun c => c.table_id) (sortColumnsByName columns)

/-- One `tables:` entry of `writeSchema`. Indexing
`columnsByTableId[table.id]` for an id with no entry yields `undefined`,
and the `columns.map` inside the three writers then throws - the aborted
pass is `none`. -/
def writeTableEntry (m : List (Nat × List PostgresColumn)) (functions : List PostgresFunction)
    (types : List PostgresType) (table : PostgresTable) : Option String :=
  match lookupGroup m table.id with
  | none => none
  | some cols =>
      some (table.name ++ ": \x7b\n                row: " ++
        writeRowTable cols (functions.filter (fun fn => fn.argument_types = table.name)) types ++
        ",\n                insert: " ++ writeInsertTable cols ++
        ",\n                update: " ++ writeUpdateTable cols ++ ",\n            \x7d")

/-- One `views:` entry of `writeSchema`; `columnsByTableId[view.id]` for an
absent id makes `writeView` throw, likewise modelled as `none`. -/
def writeViewEntry (m : List (Nat × List PostgresColumn)) (view : PostgresView) :
    Option String :=
  match lookupGroup m view.id with
  | none => none
  | some cols => some (jsonStringify view.name ++ ": " ++ writeView cols)

/-- `writeSchema` from the source. The template literal evaluates its
interpolations in order, so the tables section is built (and can throw)
before the views section. Array interpolation without an explicit `join`
(tables and views sections) joins with a bare comma. -/
def writeSchema (schemaName : String) (availableTables : List PostgresTable)
    (m : List (Nat × List PostgresColumn)) (functions : List PostgresFunction)
    (views : List PostgresView) (types arrayTypes : List PostgresType) : Option String :=
  let schemaEnums := filterSchemaEnums types schemaName
  match mapMOpt (writeTableEntry m functions types) availableTables with
  | none => none
  | some tableEntries =>
      match mapMOpt (writeViewEntry m) views with
      | none => none
      | some viewEntries =>
          some ("\x7b\n        tables: \x7b\n            " ++
            String.intercalate "," tableEntries ++
            "\n        \x7d,\n        enums: \x7b\n            " ++
            String.intercalate ",\n"
              ((schemaEnums.filter (fun t => t.enums ≠ [])).map
                (fun t => t.name ++ ": z.enum([" ++
                  String.intercalate ", " (t.enums.map (fun v => "\"" ++ v ++ "\"")) ++
                  "] as const)")) ++
            "\n        \x7d,\n        functions: " ++ writeFunctions functions types arrayTypes ++
            ",\n        views: \x7b\n            " ++ String.intercalate "," viewEntries ++
            "\n        \x7d\n    \x7d")

/-- One schema's entry in the output document: `writeSchema` applied to the
schema's tables, admitted functions, and merged views/materialized views.
`columnsByTableId` is recomputed here from the same pure inputs, which gives
the same value the source computes once. -/
def applySchemaEntry (inp : TemplateProps) (s : PostgresSchema) : Option String :=
  match writeSchema s.name (filterFromSchema inp.tables s.name) (columnsByTableId inp.columns)
      (filterSchemaFunctions inp.functions s.name)
      (filterFromSchema (inp.views ++ inp.materializedViews) s.name)
      inp.types inp.arrayTypes with
  | none => none
  | some body => some (s.name ++ ": " ++ body)

/-- The fixed leading text of the output document, up to and including the
opening of `export const schema`: the zod import and the single shared
recursive `Json`/`jsonSchema` definition. -/
def outputPrelude : String :=
  "\n    import * as z from 'zod'\n    \n    // Used for JSON types, taken from https://github.com/colinhacks/zod#json-type\n    const literalSchema = z.union([z.string(), z.number(), z.boolean(), z.null()]);\n    type Literal = z.infer<typeof literalSchema>;\n    export type Json = Literal | \x7b [key: string]: Json \x7d | Json[];\n    export const jsonSchema: z.ZodType<Json> = z.lazy(() =>\n      z.union([literalSchema, z.array(jsonSchema), z.record(jsonSchema)])\n    );\n    \n    export const schema = \x7b\n        "

/-- The fixed trailing text of the output document. -/
def outputSuffix : String := "\n    \x7d\n    "

/-- `apply` from the source: the document handed to the external
`prettier.format` collaborator, or `none` when the pass aborts. The in-place
column sort it performs on its input is exposed as `applyFinalColumns`. -/
def apply (inp : TemplateProps) : Option String :=
  match mapMOpt (applySchemaEntry inp) inp.schemas with
  | none => none
  | some entries => some (outputPrelude ++ String.intercalate ",\n" entries ++ outputSuffix)

/-- Modelled from the spec's words for the refinement in claim C7: a format
is timezone-bearing when it names a temporal type that carries a time zone
(`timetz`, `timestamptz`, `timestamp with time zone`); plain `date`, `time`
and `timestamp` are the without-time-zone forms. -/
def timezoneBearingFormatSpec (format : String) : Bool :=
  format ∈ ["timetz", "timestamptz", "timestamp with time zone"]

/-! Concrete snapshots used to evaluate the embedding at specific inputs. -/

/-- A column whose `table_id` (99) matches no table, view, or materialized
view of `c1Snapshot`. -/
def c1OrphanColumn : PostgresColumn :=
  ⟨99, "zz", "text", "text", false, false, none, none, [], none, true⟩

/-- The one column actually owned by table 1 of `c1Snapshot`. -/
def c1KeptColumn : PostgresColumn :=
  ⟨1, "a", "text", "text", false, false, none, none, [], none, true⟩

/-- A snapshot containing an orphan column: one schema, one table (id 1)
with one column, plus a column pointing at the nonexistent id 99. -/
def c1Snapshot : TemplateProps :=
  ⟨[⟨"public"⟩], [⟨1, "public", "t"⟩], [], [], [c1KeptColumn, c1OrphanColumn], [], [], [], [],
    false⟩

/-- The same snapshot with the orphan column removed. -/
def c1SnapshotNoOrphan : TemplateProps :=
  ⟨[⟨"public"⟩], [⟨1, "public", "t"⟩], [], [], [c1KeptColumn], [], [], [], [], false⟩

/-- An identity-`ALWAYS` column. -/
def c4IdColumn : PostgresColumn :=
  ⟨1, "id", "int8", "bigint", false, true, some "ALWAYS", none, [], none, true⟩

/-- An ordinary non-identity column. -/
def c4EmailColumn : PostgresColumn :=
  ⟨1, "email", "text", "text", false, false, none, none, [], none, true⟩

/-- A two-column table: identity-`ALWAYS` `id` plus plain `email`. -/
def c4Columns : List PostgresColumn := [c4IdColumn, c4EmailColumn]

/-- First overload of `"f"`: one `in` argument. -/
def c5OverloadOne : PostgresFunction := ⟨"public", "f", [⟨"a", "in", 25, false⟩], 25, ""⟩

/-- Second overload of `"f"`: two `in` arguments. -/
def c5OverloadTwo : PostgresFunction :=
  ⟨"public", "f", [⟨"b", "in", 25, false⟩, ⟨"c", "in", 25, false⟩], 25, ""⟩

/-- A singly-defined function `"area"`. -/
def c5AreaFunction : PostgresFunction := ⟨"public", "area", [⟨"r", "in", 701, false⟩], 701, ""⟩

/-- Two overloads of `"f"` followed by the single `"area"`. -/
def c5Functions : List PostgresFunction := [c5OverloadOne, c5OverloadTwo, c5AreaFunction]

/-- A column of format `timestamp` - the without-time-zone timestamp. -/
def c7TimestampColumn : PostgresColumn :=
  ⟨1, "ts", "timestamp", "timestamp without time zone", false, false, none, none, [], none, true⟩

/-- Two columns whose input order (`b` before `a`) disagrees with name
order. -/
def c8Columns : List PostgresColumn :=
  [⟨1, "b", "text", "text", false, false, none, none, [], none, true⟩,
   ⟨1, "a", "text", "text", false, false, none, none, [], none, true⟩]

/-- A snapshot with a table (id 7, schema `other`) that owns no column while
the supplied schema list contains only `public`. -/
def c9Snapshot : TemplateProps :=
  ⟨[⟨"public"⟩], [⟨7, "other", "t"⟩], [], [], [], [], [], [], [], false⟩

/-- A snapshot with a listed schema whose table (id 7) owns no column. -/
def c9ColumnlessTableSnapshot : TemplateProps :=
  ⟨[⟨"public"⟩], [⟨7, "public", "t"⟩], [], [], [], [], [], [], [], false⟩

/-- A computed read function on table `t` whose `return_type_id` (999)
matches no supplied type. -/
def c10ReadFunction : PostgresFunction := ⟨"public", "total", [⟨"r", "in", 1, false⟩], 999, "t"⟩

theorem strData_append (a b : String) : (a ++ b).data = a.data ++ b.data := by
  cases a; cases b; rfl

theorem strLength_data (a : String) : a.length = a.data.length := rfl

theorem str_ne_of_take2 {a b : String} (h : a.data.take 2 ≠ b.data.take 2) : a ≠ b :=
  fun he => h (by rw [he])

theorem take2_append_of_two_le (p : String) (r : List Char) (h : 2 ≤ p.data.length) :
    (p.data ++ r).take 2 = p.data.take 2 := by
  rw [List.take_append_eq_append_take]
  have h0 : 2 - p.data.length = 0 := by omega
  rw [h0, List.take_zero, List.append_nil]

theorem appendPair_ne (p x q : String) (hp : 2 ≤ p.data.length)
    (h : p.data.take 2 ≠ q.data.take 2) : p ++ x ≠ q := by
  apply str_ne_of_take2
  rw [strData_append, take2_append_of_two_le p x.data hp]
  exact h

theorem appendTriple_ne (p x s q : String) (hp : 2 ≤ p.data.length)
    (h : p.data.take 2 ≠ q.data.take 2) : p ++ x ++ s ≠ q := by
  apply appendPair_ne (p ++ x) s q
  · rw [strData_append, List.length_append]; omega
  · rw [strData_append, take2_append_of_two_le p x.data hp]; exact h

theorem append_ne_empty (a b : String) (ha : a.data ≠ []) : a ++ b ≠ "" := by
  intro h
  apply ha
  have hd := congrArg String.data h
  rw [strData_append] at hd
  exact List.append_eq_nil.mp hd |>.1

theorem mem_ite_singleton {α : Type} {p : Prop} [Decidable p] {a x : α} :
    a ∈ (if p then [x] else []) ↔ p ∧ a = x := by
  split <;> simp_all

/-- Characterization of the extra-method list: exactly which refinement
strings appear for a column, branch by branch. -/
theorem mem_extractExtraZodMethods {c : PostgresColumn} {s : String} :
    s ∈ extractExtraZodMethods c ↔
      (c.format = "uuid" ∧ s = "uuid()") ∨
      (c.format ∈ ["date", "time"] ∧ s = "datetime()") ∨
      (c.format ∈ ["timetz", "timestamp", "timestamptz", "timestamp with time zone"] ∧
        s = "datetime(\x7b offset: true \x7d)") ∨
      ((c.data_type = "USER-DEFINED" ∧ c.enums ≠ []) ∧
        s = "enum([" ++ String.intercalate ", " (c.enums.map (fun v => "\"" ++ v ++ "\"")) ++
          "] as const)") ∨
      (c.format = "inet" ∧ s = "regex(/" ++ IP_REGEX ++ "/)") ∨
      (∃ str, c.comment = some str ∧ str ≠ "" ∧ s = "describe(\"" ++ escapeString str ++ "\")") := by
  unfold extractExtraZodMethods
  rcases hcm : c.comment with _ | str
  · simp [List.mem_append, mem_ite_singleton]
  · by_cases hstr : str = "" <;> simp [List.mem_append, mem_ite_singleton, hstr]

theorem mem_uniq_foldl {α : Type} [DecidableEq α] (l : List α) :
    ∀ (acc : List α) (x : α),
      x ∈ l.foldl (fun acc x => if x ∈ acc then acc else acc ++ [x]) acc ↔ x ∈ acc ∨ x ∈ l := by
  induction l with
  | nil => intro acc x; simp
  | cons a l ih =>
      intro acc x
      simp only [List.foldl_cons]
      rw [ih]
      by_cases ha : a ∈ acc
      · simp only [if_pos ha]
        constructor
        · rintro (h | h)
          · exact Or.inl h
          · exact Or.inr (List.mem_cons_of_mem a h)
        · rintro (h | h)
          · exact Or.inl h
          · rcases List.mem_cons.mp h with h | h
            · exact Or.inl (h ▸ ha)
            · exact Or.inr h
      · simp only [if_neg ha, List.mem_append, List.mem_singleton, List.mem_cons]
        tauto

theorem nodup_uniq_foldl {α : Type} [DecidableEq α] (l : List α) :
    ∀ (acc : List α), acc.Nodup →
      (l.foldl (fun acc x => if x ∈ acc then acc else acc ++ [x]) acc).Nodup := by
  induction l with
  | nil => intro acc h; simpa using h
  | cons a l ih =>
      intro acc hacc
      simp only [List.foldl_cons]
      by_cases ha : a ∈ acc
      · rw [if_pos ha]; exact ih acc hacc
      · rw [if_neg ha]
        apply ih
        rw [List.nodup_append]
        exact ⟨hacc, List.nodup_singleton a,
          fun x hx hxa => ha ((List.mem_singleton.mp hxa) ▸ hx)⟩

theorem mem_uniq {α : Type} [DecidableEq α] {l : List α} {x : α} : x ∈ uniq l ↔ x ∈ l := by
  unfold uniq
  rw [mem_uniq_foldl]
  simp

theorem nodup_uniq {α : Type} [DecidableEq α] (l : List α) : (uniq l).Nodup :=
  nodup_uniq_foldl l [] List.nodup_nil

theorem count_uniq_of_mem {α : Type} [DecidableEq α] {l : List α} {x : α} (h : x ∈ l) :
    (uniq l).count x = 1 :=
  List.count_eq_one_of_mem (nodup_uniq l) (mem_uniq.mpr h)

theorem charListLe_total : ∀ a b : List Char, charListLe a b = true ∨ charListLe b a = true := by
  intro a
  induction a with
  | nil => intro b; left; rfl
  | cons x xs ih =>
      intro b
      cases b with
      | nil => right; rfl
      | cons y ys =>
          simp only [charListLe]
          rcases Nat.lt_trichotomy x.toNat y.toNat with h | h | h
          · left; rw [if_pos h]
          · rw [if_neg (by omega), if_neg (by omega), if_neg (by omega), if_neg (by omega)]
            exact ih ys
          · right; rw [if_pos h]

theorem charListLe_trans :
    ∀ a b c : List Char, charListLe a b = true → charListLe b c = true →
      charListLe a c = true := by
  intro a
  induction a with
  | nil => intro b c _ _; rfl
  | cons x xs ih =>
      intro b c hab hbc
      cases b with
      | nil => simp [charListLe] at hab
      | cons y ys =>
          cases c with
          | nil => simp [charListLe] at hbc
          | cons z zs =>
              simp only [charListLe] at hab hbc ⊢
              by_cases hxy : x.toNat < y.toNat
              · by_cases hyz : y.toNat < z.toNat
                · rw [if_pos (by omega)]
                · rw [if_neg hyz] at hbc
                  by_cases hzy : z.toNat < y.toNat
                  · rw [if_pos hzy] at hbc; exact absurd hbc (by simp)
                  · rw [if_pos (by omega)]
              · rw [if_neg hxy] at hab
                by_cases hyx : y.toNat < x.toNat
                · rw [if_pos hyx] at hab; exact absurd hab (by simp)
                · rw [if_neg hyx] at hab
                  by_cases hyz : y.toNat < z.toNat
                  · rw [if_pos (by omega)]
                  · rw [if_neg hyz] at hbc
                    by_cases hzy : z.toNat < y.toNat
                    · rw [if_pos hzy] at hbc; exact absurd hbc (by simp)
                    · rw [if_neg hzy] at hbc
                      rw [if_neg (by omega), if_neg (by omega)]
                      exact ih ys zs hab hbc

instance : IsTotal PostgresColumn (fun a b => strLe a.name b.name = true) :=
  ⟨fun a b => charListLe_total a.name.data b.name.data⟩

instance : IsTrans PostgresColumn (fun a b => strLe a.name b.name = true) :=
  ⟨fun _ _ _ hab hbc => charListLe_trans _ _ _ hab hbc⟩

theorem fst_addToGroups_update {κ α : Type} [DecidableEq κ] (kc : κ) (c : α) (q : κ × List α) :
    (if q.1 = kc then (q.1, q.2 ++ [c]) else q).1 = q.1 := by
  split <;> rfl

theorem lookup_addToGroups {κ α : Type} [DecidableEq κ] (key : α → κ)
    (acc : List (κ × List α)) (c : α) (k : κ) :
    lookupGroup (addToGroups key acc c) k =
      if key c = k then some ((lookupGroup acc k).getD [] ++ [c]) else lookupGroup acc k := by
  unfold addToGroups lookupGroup
  by_cases hany : acc.any (fun p => p.1 = key c)
  · rw [if_pos hany]
    rw [List.find?_map
      (fun p : κ × List α => if p.1 = key c then (p.1, p.2 ++ [c]) else p) acc]
    have hpred :
        ((fun p : κ × List α => decide (p.1 = k)) ∘
          (fun p : κ × List α => if p.1 = key c then (p.1, p.2 ++ [c]) else p)) =
          (fun p : κ × List α => decide (p.1 = k)) := by
      funext q
      simp only [Function.comp_apply]
      rw [fst_addToGroups_update]
    rw [hpred]
    rcases hf : List.find? (fun p : κ × List α => decide (p.1 = k)) acc with _ | q
    · by_cases hk : key c = k
      · exfalso
        obtain ⟨p, hp, hpk⟩ := List.any_eq_true.mp hany
        have h2 := List.find?_eq_none.mp hf p hp
        simp only [decide_eq_true_eq] at h2 hpk
        exact h2 (by rw [hpk, hk])
      · simp [hk]
    · have hq : q.1 = k := by
        have h2 := List.find?_some hf
        simpa using h2
      by_cases hk : key c = k
      · simp only [Option.map_map, Option.map_some', Option.getD_some, if_pos hk,
          Function.comp_apply]
        rw [if_pos (hq.trans hk.symm)]
      · simp only [Option.map_map, Option.map_some', if_neg hk, Function.comp_apply]
        rw [if_neg (fun h : q.1 = key c => hk ((hq.symm.trans h).symm))]
  · rw [if_neg hany]
    rw [List.find?_append]
    by_cases hk : key c = k
    · have hfn : List.find? (fun p : κ × List α => decide (p.1 = k)) acc = none := by
        rw [List.find?_eq_none]
        intro p hp
        simp only [decide_eq_true_eq]
        intro hpk
        have h2 := List.any_eq_false.mp (Bool.of_not_eq_true hany) p hp
        simp only [decide_eq_true_eq] at h2
        exact h2 (hpk.trans hk.symm)
      rw [hfn]
      simp [List.find?_cons, hk]
    · have hfs : List.find? (fun p : κ × List α => decide (p.1 = k)) [(key c, [c])] = none := by
        simp [List.find?_cons, hk]
      rw [hfs, Option.or_none, if_neg hk]

theorem lookup_foldl_addToGroups {κ α : Type} [DecidableEq κ] [DecidableEq α] (key : α → κ)
    (items : List α) :
    ∀ (acc : List (κ × List α)) (k : κ),
      lookupGroup (items.foldl (addToGroups key) acc) k =
        match lookupGroup acc k with
        | some l => some (l ++ items.filter (fun c => key c = k))
        | none =>
            if items.filter (fun c => key c = k) = [] then none
            else some (items.filter (fun c => key c = k)) := by
  induction items with
  | nil =>
      intro acc k
      cases hl : lookupGroup acc k <;> simp [hl]
  | cons c rest ih =>
      intro acc k
      simp only [List.foldl_cons]
      rw [ih (addToGroups key acc c) k, lookup_addToGroups]
      cases hl : lookupGroup acc k <;> by_cases hk : key c = k <;>
        simp [hk, hl, List.filter_cons]

/-- The grouped object built by the `reduce`: looking up a key yields
exactly the input elements carrying that key, in input order, or
`undefined` when there are none. -/
theorem lookupGroup_groupPairs {κ α : Type} [DecidableEq κ] [DecidableEq α] (key : α → κ)
    (items : List α) (k : κ) :
    lookupGroup (groupPairs key items) k =
      if items.filter (fun c => key c = k) = [] then none
      else some (items.filter (fun c => key c = k)) := by
  unfold groupPairs
  rw [lookup_foldl_addToGroups]
  rfl

theorem lookupGroup_groupPairs_eq_none_iff {κ α : Type} [DecidableEq κ] [DecidableEq α]
    (key : α → κ) (items : List α) (k : κ) :
    lookupGroup (groupPairs key items) k = none ↔ ∀ c ∈ items, ¬ key c = k := by
  rw [lookupGroup_groupPairs]
  constructor
  · intro h
    by_cases he : items.filter (fun c => key c = k) = []
    · intro c hc hk
      have h2 := List.filter_eq_nil_iff.mp he c hc
      simp only [decide_eq_true_eq] at h2
      exact h2 hk
    · rw [if_neg he] at h
      exact absurd h (by simp)
  · intro h
    rw [if_pos (List.filter_eq_nil_iff.mpr (fun c hc => by simpa using h c hc))]

theorem lookupGroup_groupPairs_eq_some {κ α : Type} [DecidableEq κ] [DecidableEq α]
    {key : α → κ} {items : List α} {k : κ} {g : List α}
    (h : lookupGroup (groupPairs key items) k = some g) :
    g = items.filter (fun c => key c = k) := by
  rw [lookupGroup_groupPairs] at h
  by_cases he : items.filter (fun c => key c = k) = []
  · rw [if_pos he] at h
    exact absurd h (by simp)
  · rw [if_neg he] at h
    exact (Option.some_inj.mp h).symm

theorem mapMOpt_eq_none_iff {α β : Type} (f : α → Option β) (l : List α) :
    mapMOpt f l = none ↔ ∃ a ∈ l, f a = none := by
  induction l with
  | nil => simp [mapMOpt]
  | cons a l ih =>
      simp only [mapMOpt]
      rcases hfa : f a with _ | b
      · simp [List.exists_mem_cons_iff, hfa]
      · rcases hml : mapMOpt f l with _ | bs
        · simp only [hfa, hml, List.exists_mem_cons_iff]
          simp [← ih, hml]
        · simp only [hfa, hml, List.exists_mem_cons_iff]
          simp [← ih, hml]

theorem mapMOpt_isSome_iff {α β : Type} (f : α → Option β) (l : List α) :
    (mapMOpt f l).isSome = true ↔ ∀ a ∈ l, (f a).isSome = true := by
  rw [← Option.ne_none_iff_isSome, Ne, mapMOpt_eq_none_iff]
  push_neg
  constructor
  · intro h a ha
    rw [← Option.ne_none_iff_isSome]
    exact h a ha
  · intro h a ha
    rw [Option.ne_none_iff_isSome]
    exact h a ha

theorem mem_insertionSort {α : Type} (r : α → α → Prop) [DecidableRel r] {l : List α} {x : α} :
    x ∈ List.insertionSort r l ↔ x ∈ l :=
  (List.perm_insertionSort r l).mem_iff

theorem strAppend3_ne_empty (p x s : String) (hp : p.data ≠ []) : p ++ x ++ s ≠ "" := by
  intro h
  have hd := congrArg String.data h
  rw [strData_append, strData_append] at hd
  exact hp (List.append_eq_nil.mp (List.append_eq_nil.mp hd).1).1

theorem nonArrayZodType_ne_empty (s e : String) (he : e ≠ "") : nonArrayZodType s e ≠ "" := by
  unfold nonArrayZodType
  split_ifs <;> first | decide | exact he

theorem basicZodTypeGo_ne_empty :
    ∀ (cs : List Char) (e f : String), e ≠ "" → f ≠ "" → basicZodTypeGo cs e f ≠ "" := by
  intro cs
  induction cs with
  | nil =>
      intro e f he _
      exact nonArrayZodType_ne_empty _ _ he
  | cons c cs ih =>
      intro e f he hf
      simp only [basicZodTypeGo]
      by_cases hc : c = '_'
      · rw [if_pos hc]
        have hsub : basicZodTypeGo cs "z.unknown()" "z.unknown()" ≠ "" :=
          ih _ _ (by decide) (by decide)
        rw [if_pos hsub]
        exact strAppend3_ne_empty "z.array(" _ ")" (by decide)
      · rw [if_neg hc]
        exact nonArrayZodType_ne_empty _ _ he

/-- C2: for every input string, the type mapper with its default fallback
arguments terminates (it is a total Lean function), never raises (it is
pure), and returns a non-empty expression string. -/
theorem basicZodType_default_total_nonempty (s : String) : basicZodType s ≠ "" :=
  basicZodTypeGo_ne_empty s.data "z" "z.unknown()" (by decide) (by decide)

/-- C3 (amended): a format name beginning with the array sigil is always
mapped to an array constructor around the recursive mapping of the
remainder; because that recursive mapping is invoked with the unknown
placeholder as its enum fallback it is never empty, so the `hardFallback`
branch guarding against wrapping a non-expression is unreachable - a
remainder with no primitive match yields an array of the unknown
placeholder, never the `hardFallback`. -/
theorem basicZodType_array_always_wraps (s e f : String) :
    basicZodType ("_" ++ s) e f =
      "z.array(" ++ basicZodType s "z.unknown()" "z.unknown()" ++ ")" := by
  unfold basicZodType
  have hd : ("_" ++ s).data = '_' :: s.data := by rw [strData_append]; rfl
  rw [hd]
  simp only [basicZodTypeGo, if_true]
  rw [if_pos (basicZodTypeGo_ne_empty s.data "z.unknown()" "z.unknown()"
    (by decide) (by decide))]

/-- C3 counterexample: `"_foo"` has a remainder with no primitive match, yet
the mapper (at its default arguments, whose `hardFallback` is
`z.unknown()`) does not return the `hardFallback`: it wraps anyway,
producing `z.array(z.unknown())`. -/
theorem basicZodType_array_fallback_counterexample :
    basicZodType "_foo" = "z.array(z.unknown())" ∧ basicZodType "_foo" ≠ "z.unknown()" := by
  constructor <;> decide

/-- C6: in the update variant, every surviving field's method chain - the
extra methods followed by `uniq` of the general methods with `'optional()'`
appended (exactly the list `writeUpdateField` joins onto the base type) -
carries exactly one `optional()` marker, whatever the column's nullability,
identity, or default: the appended marker is merged by `uniq` with any
general one, never duplicated. -/
theorem update_field_single_optional (c : PostgresColumn) :
    ((extractExtraZodMethods c) ++
      uniq (extractGeneralZodMethods c ++ ["optional()"])).count "optional()" = 1 := by
  rw [List.count_append]
  have h0 : (extractExtraZodMethods c).count "optional()" = 0 := by
    rw [List.count_eq_zero]
    intro hmem
    rcases mem_extractExtraZodMethods.mp hmem with
      ⟨_, h⟩ | ⟨_, h⟩ | ⟨_, h⟩ | ⟨_, h⟩ | ⟨_, h⟩ | ⟨str, _, _, h⟩
    · exact absurd h (by decide)
    · exact absurd h (by decide)
    · exact absurd h (by decide)
    · exact absurd h.symm (appendTriple_ne "enum([" _ "] as const)" "optional()"
        (by decide) (by decide))
    · exact absurd h.symm (appendTriple_ne "regex(/" _ "/)" "optional()"
        (by decide) (by decide))
    · exact absurd h.symm (appendTriple_ne "describe(\"" _ "\")" "optional()"
        (by decide) (by decide))
  have h1 : (uniq (extractGeneralZodMethods c ++ ["optional()"])).count "optional()" = 1 :=
    count_uniq_of_mem (List.mem_append_right _ (List.mem_singleton.mpr rfl))
  rw [h0, h1]

/-- C7 (amended): the modifier composer attaches the plain `datetime()`
marker exactly to columns of format `date` or `time`, and the offset-aware
`datetime({ offset: true })` marker exactly to columns of format `timetz`,
`timestamp`, `timestamptz`, or `timestamp with time zone` - that is, to the
whole timestamp family including the without-time-zone `timestamp`, not
only to the timezone-bearing formats. -/
theorem datetime_markers_exact (c : PostgresColumn) :
    ("datetime()" ∈ extractExtraZodMethods c ↔ c.format ∈ ["date", "time"]) ∧
    ("datetime(\x7b offset: true \x7d)" ∈ extractExtraZodMethods c ↔
      c.format ∈ ["timetz", "timestamp", "timestamptz", "timestamp with time zone"]) := by
  constructor
  · constructor
    · intro h
      rcases mem_extractExtraZodMethods.mp h with
        ⟨_, h⟩ | ⟨hf, _⟩ | ⟨_, h⟩ | ⟨_, h⟩ | ⟨_, h⟩ | ⟨str, _, _, h⟩
      · exact absurd h (by decide)
      · exact hf
      · exact absurd h (by decide)
      · exact absurd h.symm (appendTriple_ne "enum([" _ "] as const)" "datetime()"
          (by decide) (by decide))
      · exact absurd h.symm (appendTriple_ne "regex(/" _ "/)" "datetime()"
          (by decide) (by decide))
      · exact absurd h.symm (appendTriple_ne "describe(\"" _ "\")" "datetime()"
          (by decide) (by decide))
    · intro hf
      exact mem_extractExtraZodMethods.mpr (Or.inr (Or.inl ⟨hf, rfl⟩))
  · constructor
    · intro h
      rcases mem_extractExtraZodMethods.mp h with
        ⟨_, h⟩ | ⟨_, h⟩ | ⟨hf, _⟩ | ⟨_, h⟩ | ⟨_, h⟩ | ⟨str, _, _, h⟩
      · exact absurd h (by decide)
      · exact absurd h (by decide)
      · exact hf
      · exact absurd h.symm (appendTriple_ne "enum([" _ "] as const)"
          "datetime(\x7b offset: true \x7d)" (by decide) (by decide))
      · exact absurd h.symm (appendTriple_ne "regex(/" _ "/)"
          "datetime(\x7b offset: true \x7d)" (by decide) (by decide))
      · exact absurd h.symm (appendTriple_ne "describe(\"" _ "\")"
          "datetime(\x7b offset: true \x7d)" (by decide) (by decide))
    · intro hf
      exact mem_extractExtraZodMethods.mpr (Or.inr (Or.inr (Or.inl ⟨hf, rfl⟩)))

/-- C7 counterexample: the without-time-zone format `timestamp` receives the
offset-aware marker although it is not a timezone-bearing format, so the
offset-aware marker is not attached exactly to timezone-bearing formats. -/
theorem timestamp_offset_marker_counterexample :
    "datetime(\x7b offset: true \x7d)" ∈ extractExtraZodMethods c7TimestampColumn ∧
      timezoneBearingFormatSpec c7TimestampColumn.format = false := by
  constructor <;> decide

/-- C4: a column with `identity_generation == "ALWAYS"` yields a field in
the row object (`writeRowTable` maps over every column), and survives
neither the insert filter nor the update filter, so neither
`writeInsertTable` nor `writeUpdateTable` emits a field for it. -/
theorem identity_always_row_only (cols : List PostgresColumn) (c : PostgresColumn)
    (hc : c ∈ cols) (hg : c.identity_generation = some "ALWAYS") :
    ("\"" ++ c.name ++ "\": " ++ writeRowColumn c) ∈ rowColumnEntries cols ∧
      c ∉ insertTableColumns cols ∧ c ∉ updateTableColumns cols := by
  refine ⟨List.mem_map.mpr ⟨c, hc, rfl⟩, ?_, ?_⟩
  · intro hmem
    unfold insertTableColumns at hmem
    have h := (List.mem_filter.mp hmem).2
    simp [hg] at h
  · intro hmem
    unfold updateTableColumns at hmem
    have h := (List.mem_filter.mp hmem).2
    simp [hg] at h

/-- C4 witness: the identity-`ALWAYS` `id` column of the concrete
`c4Columns` table is a row field but survives neither filtered list. -/
theorem identity_always_row_only_witness :
    (c4IdColumn ∈ c4Columns ∧ c4IdColumn.identity_generation = some "ALWAYS") ∧
      (("\"" ++ c4IdColumn.name ++ "\": " ++ writeRowColumn c4IdColumn) ∈
          rowColumnEntries c4Columns ∧
        c4IdColumn ∉ insertTableColumns c4Columns ∧
        c4IdColumn ∉ updateTableColumns c4Columns) :=
  ⟨⟨by decide, by decide⟩,
    identity_always_row_only c4Columns c4IdColumn (by decide) (by decide)⟩

/-- C8 counterexample: `apply` does not leave the element order of the
input columns array unchanged - its in-place sort reorders `c8Columns`
(given as `b` before `a`), so after `apply` returns the caller's array
differs from the one supplied. -/
theorem apply_mutates_columns_counterexample : applyFinalColumns c8Columns ≠ c8Columns := by
  decide

/-- C8 (amended): `apply` consumes every input collection read-only except
the columns array, which its first statement sorts in place: afterwards the
caller's columns array is a permutation of the original entities (none of
which is itself modified) in ascending name order. -/
theorem apply_reorders_columns_in_place (columns : List PostgresColumn) :
    (applyFinalColumns columns).Perm columns ∧
      List.Sorted (fun a b => strLe a.name b.name = true) (applyFinalColumns columns) := by
  unfold applyFinalColumns sortColumnsByName
  exact ⟨List.perm_insertionSort _ columns, List.sorted_insertionSort _ columns⟩

/-- C5: for a group that the name-grouping `reduce` stores under a name, the
group is exactly the input functions bearing that name, in stable input
order and without any structural merging or deduplication (structurally
equal overloads each keep their occurrence); a one-element group emits the
plain argument-object schema with no union wrapper; a group of two or more
emits `z.union` over each overload's independently built object schema in
that stored order; and each overload's object has one field per argument of
mode `"in"` only. -/
theorem function_overloads_resolved (fns : List PostgresFunction) (name : String)
    (gfns : List PostgresFunction) (types arrayTypes : List PostgresType)
    (h : lookupGroup (groupPairs (fun f => f.name) fns) name = some gfns) :
    gfns = fns.filter (fun f => f.name = name) ∧
    (∀ f, gfns = [f] →
      writeFunctionGroupEntry types arrayTypes (name, gfns) =
        jsonStringify name ++ ": " ++ writeFunction f types arrayTypes) ∧
    (2 ≤ gfns.length →
      writeFunctionGroupEntry types arrayTypes (name, gfns) =
        "\n                " ++ jsonStringify name ++ ": z.union([\n                    " ++
          String.intercalate ",\n" (gfns.map (fun f => writeFunction f types arrayTypes)) ++
          "\n                ])\n            ") ∧
    (∀ f : PostgresFunction,
      writeFunction f types arrayTypes =
        "z.object(\x7b\n        " ++
          String.intercalate ",\n"
            ((f.args.filter (fun a => a.mode = "in")).map
              (fun a => jsonStringify a.name ++ ": " ++ writeFunctionArg a types arrayTypes)) ++
          "\n    \x7d)") := by
  refine ⟨lookupGroup_groupPairs_eq_some h, ?_, ?_, fun f => rfl⟩
  · rintro f rfl
    rfl
  · intro h2
    rcases gfns with _ | ⟨a, _ | ⟨b, rest⟩⟩
    · exact absurd h2 (by simp)
    · exact absurd h2 (by simp)
    · rfl

/-- C5 witness: in the concrete list with two overloads of `"f"` and one
`"area"`, the stored group for `"f"` is the two overloads in input order,
and it equals the name filter over the input. -/
theorem function_overloads_resolved_witness :
    (lookupGroup (groupPairs (fun f => f.name) c5Functions) "f" =
        some [c5OverloadOne, c5OverloadTwo]) ∧
      [c5OverloadOne, c5OverloadTwo] = c5Functions.filter (fun f => f.name = "f") :=
  ⟨by decide,
    (function_overloads_resolved c5Functions "f" [c5OverloadOne, c5OverloadTwo] [] []
      (by decide)).1⟩

/-- C10: the row object of a table holds one field per column
(`rowColumnEntries` preserves length) plus one field per admitted function
of the schema whose `argument_types` equals the table's name - exactly the
list `writeSchema` passes to `writeRowTable` - named after the function and
typed by `writeReadFunction`; and when the function's `return_type_id`
matches no supplied type, that emitted expression is the bare text
`unknown`. -/
theorem row_read_function_fields (allFunctions : List PostgresFunction) (schemaName : String)
    (types : List PostgresType) (t : PostgresTable) (cols : List PostgresColumn)
    (f : PostgresFunction) (hf : f ∈ filterSchemaFunctions allFunctions schemaName)
    (ha : f.argument_types = t.name)
    (hr : types.find? (fun ty => ty.id = f.return_type_id) = none) :
    writeReadFunction f types = "unknown" ∧
    ("\"" ++ f.name ++ "\": " ++ writeReadFunction f types) ∈
      rowFunctionEntries
        ((filterSchemaFunctions allFunctions schemaName).filter
          (fun fn => fn.argument_types = t.name)) types ∧
    (rowColumnEntries cols).length = cols.length ∧
    (∀ fns : List PostgresFunction,
      (rowFunctionEntries fns types).length = fns.length) := by
  refine ⟨?_, ?_, List.length_map _ _, fun fns => List.length_map _ _⟩
  · unfold writeReadFunction
    rw [hr]
  · apply List.mem_map.mpr
    refine ⟨f, ?_, rfl⟩
    rw [List.mem_filter]
    exact ⟨hf, by simp [ha]⟩

/-- C10 witness: the concrete read function on table `t` is admitted for
schema `public`, and with no supplied types its row field is typed by the
bare text `unknown`. -/
theorem row_read_function_fields_witness :
    (c10ReadFunction ∈ filterSchemaFunctions [c10ReadFunction] "public" ∧
      c10ReadFunction.argument_types = "t") ∧
      writeReadFunction c10ReadFunction [] = "unknown" :=
  ⟨⟨by decide, by decide⟩,
    (row_read_function_fields [c10ReadFunction] "public" [] ⟨1, "public", "t"⟩ []
      c10ReadFunction (by decide) (by decide) (by decide)).1⟩

theorem writeTableEntry_eq_none_iff (m : List (Nat × List PostgresColumn))
    (fns : List PostgresFunction) (types : List PostgresType) (t : PostgresTable) :
    writeTableEntry m fns types t = none ↔ lookupGroup m t.id = none := by
  unfold writeTableEntry
  cases h : lookupGroup m t.id <;> simp [h]

theorem writeViewEntry_eq_none_iff (m : List (Nat × List PostgresColumn)) (v : PostgresView) :
    writeViewEntry m v = none ↔ lookupGroup m v.id = none := by
  unfold writeViewEntry
  cases h : lookupGroup m v.id <;> simp [h]

theorem writeSchema_eq_none_iff (schemaName : String) (availableTables : List PostgresTable)
    (m : List (Nat × List PostgresColumn)) (functions : List PostgresFunction)
    (views : List PostgresView) (types arrayTypes : List PostgresType) :
    writeSchema schemaName availableTables m functions views types arrayTypes = none ↔
      (mapMOpt (writeTableEntry m functions types) availableTables = none ∨
        mapMOpt (writeViewEntry m) views = none) := by
  unfold writeSchema
  cases h1 : mapMOpt (writeTableEntry m functions types) availableTables <;>
    cases h2 : mapMOpt (writeViewEntry m) views <;> simp [h1, h2]

theorem applySchemaEntry_eq_none_iff (inp : TemplateProps) (s : PostgresSchema) :
    applySchemaEntry inp s = none ↔
      writeSchema s.name (filterFromSchema inp.tables s.name) (columnsByTableId inp.columns)
        (filterSchemaFunctions inp.functions s.name)
        (filterFromSchema (inp.views ++ inp.materializedViews) s.name)
        inp.types inp.arrayTypes = none := by
  unfold applySchemaEntry
  cases h : writeSchema s.name (filterFromSchema inp.tables s.name)
      (columnsByTableId inp.columns) (filterSchemaFunctions inp.functions s.name)
      (filterFromSchema (inp.views ++ inp.materializedViews) s.name)
      inp.types inp.arrayTypes <;> simp [h]

theorem apply_eq_none_iff (inp : TemplateProps) :
    apply inp = none ↔ mapMOpt (applySchemaEntry inp) inp.schemas = none := by
  unfold apply
  cases h : mapMOpt (applySchemaEntry inp) inp.schemas <;> simp [h]

theorem lookup_columnsByTableId_eq_none_iff (columns : List PostgresColumn) (tid : Nat) :
    lookupGroup (columnsByTableId columns) tid = none ↔
      ∀ c ∈ columns, ¬ c.table_id = tid := by
  unfold columnsByTableId sortColumnsByName
  rw [lookupGroup_groupPairs_eq_none_iff]
  constructor
  · intro h c hc
    exact h c ((List.perm_insertionSort _ columns).mem_iff.mpr hc)
  · intro h c hc
    exact h c ((List.perm_insertionSort _ columns).mem_iff.mp hc)

theorem mem_filterFromSchema {items : List PostgresTable} {sn : String} {e : PostgresTable} :
    e ∈ filterFromSchema items sn ↔ e ∈ items ∧ e.schema = sn := by
  unfold filterFromSchema
  rw [mem_insertionSort, List.mem_filter]
  simp

/-- C9 (amended): a table, view, or materialized view that belongs to one of
the supplied schemas and whose id owns no column in the column list makes
`apply` abort: the grouped column map has no entry for that id and the
row/insert/update/view writers dereference the absent entry. Under that
schema-membership proviso, `apply` is total only when every such entity id
owns at least one column. -/
theorem columnless_entity_aborts (inp : TemplateProps) (e : PostgresTable)
    (he : e ∈ inp.tables ∨ e ∈ inp.views ∨ e ∈ inp.materializedViews)
    (hs : ∃ s ∈ inp.schemas, s.name = e.schema)
    (hc : ∀ c ∈ inp.columns, ¬ c.table_id = e.id) :
    apply inp = none := by
  obtain ⟨s, hsmem, hsname⟩ := hs
  have hm : lookupGroup (columnsByTableId inp.columns) e.id = none :=
    (lookup_columnsByTableId_eq_none_iff _ _).mpr hc
  rw [apply_eq_none_iff, mapMOpt_eq_none_iff]
  refine ⟨s, hsmem, ?_⟩
  rw [applySchemaEntry_eq_none_iff, writeSchema_eq_none_iff]
  rcases he with het | hev
  · left
    rw [mapMOpt_eq_none_iff]
    exact ⟨e, mem_filterFromSchema.mpr ⟨het, hsname.symm⟩,
      (writeTableEntry_eq_none_iff _ _ _ _).mpr hm⟩
  · right
    rw [mapMOpt_eq_none_iff]
    exact ⟨e, mem_filterFromSchema.mpr ⟨List.mem_append.mpr hev, hsname.symm⟩,
      (writeViewEntry_eq_none_iff _ _).mpr hm⟩

/-- C9 witness: `apply` aborts on the concrete snapshot whose listed schema
`public` holds table id 7 with no columns. -/
theorem columnless_entity_aborts_witness :
    ((⟨7, "public", "t"⟩ : PostgresTable) ∈ c9ColumnlessTableSnapshot.tables ∧
      (∃ s ∈ c9ColumnlessTableSnapshot.schemas, s.name = "public") ∧
      (∀ c ∈ c9ColumnlessTableSnapshot.columns, ¬ c.table_id = 7)) ∧
      apply c9ColumnlessTableSnapshot = none :=
  ⟨⟨by decide, by decide, by decide⟩,
    columnless_entity_aborts c9ColumnlessTableSnapshot ⟨7, "public", "t"⟩
      (Or.inl (by decide)) (by decide) (by decide)⟩

/-- C9 counterexample: as literally stated - over every table of the
snapshot - the claim fails: `c9Snapshot` holds a table (id 7, schema
`other`) owning no column, yet `apply` completes and produces a document,
because no supplied schema ever reaches that table. -/
theorem columnless_table_no_error_counterexample :
    (∃ e ∈ c9Snapshot.tables, ∀ c ∈ c9Snapshot.columns, ¬ c.table_id = e.id) ∧
      (apply c9Snapshot).isSome = true := by
  constructor
  · exact ⟨⟨7, "other", "t"⟩, by decide, by decide⟩
  · decide

/-- C1 (amended): `apply` never aborts on account of an orphan column. A
column whose `table_id` matches no table, view, or materialized view is
silently dropped - its group is simply never looked up - and the pass
produces an output document whenever every entity of the supplied schemas
owns at least one column; the only aborting condition is the converse
topology violation (a listed table or view owning no column, claim C9). -/
theorem orphan_columns_never_abort (inp : TemplateProps)
    (h : ∀ e ∈ inp.tables ++ inp.views ++ inp.materializedViews,
      e.schema ∈ inp.schemas.map (fun s => s.name) →
        ∃ c ∈ inp.columns, c.table_id = e.id) :
    (apply inp).isSome = true := by
  rw [← Option.ne_none_iff_isSome]
  intro hnone
  rw [apply_eq_none_iff, mapMOpt_eq_none_iff] at hnone
  obtain ⟨s, hsmem, hse⟩ := hnone
  rw [applySchemaEntry_eq_none_iff, writeSchema_eq_none_iff] at hse
  rcases hse with hts | hvs
  · rw [mapMOpt_eq_none_iff] at hts
    obtain ⟨e, hemem, hentry⟩ := hts
    rw [writeTableEntry_eq_none_iff, lookup_columnsByTableId_eq_none_iff] at hentry
    obtain ⟨he1, he2⟩ := mem_filterFromSchema.mp hemem
    obtain ⟨c, hc1, hc2⟩ :=
      h e (List.mem_append.mpr (Or.inl (List.mem_append.mpr (Or.inl he1))))
        (List.mem_map.mpr ⟨s, hsmem, he2.symm⟩)
    exact hentry c hc1 hc2
  · rw [mapMOpt_eq_none_iff] at hvs
    obtain ⟨e, hemem, hentry⟩ := hvs
    rw [writeViewEntry_eq_none_iff, lookup_columnsByTableId_eq_none_iff] at hentry
    obtain ⟨he1, he2⟩ := mem_filterFromSchema.mp hemem
    have he3 : e ∈ inp.tables ++ inp.views ++ inp.materializedViews := by
      rcases List.mem_append.mp he1 with h1 | h1
      · exact List.mem_append.mpr (Or.inl (List.mem_append.mpr (Or.inr h1)))
      · exact List.mem_append.mpr (Or.inr h1)
    obtain ⟨c, hc1, hc2⟩ := h e he3 (List.mem_map.mpr ⟨s, hsmem, he2.symm⟩)
    exact hentry c hc1 hc2

set_option maxRecDepth 4000 in
/-- C1 witness: on the concrete snapshot containing the orphan column
(table_id 99, matching nothing) while table 1 owns a column, `apply`
produces an output document. -/
theorem orphan_columns_never_abort_witness :
    (∀ e ∈ c1Snapshot.tables ++ c1Snapshot.views ++ c1Snapshot.materializedViews,
      e.schema ∈ c1Snapshot.schemas.map (fun s => s.name) →
        ∃ c ∈ c1Snapshot.columns, c.table_id = e.id) ∧
      (apply c1Snapshot).isSome = true :=
  ⟨by decide, orphan_columns_never_abort c1Snapshot (by decide)⟩

set_option maxRecDepth 8000 in
/-- C1 counterexample: `c1Snapshot` contains a column whose `table_id`
matches no table, view, or materialized view, yet `apply` does not abort: it
produces an output document, and that document is identical to the one for
the same snapshot without the orphan column - the column is silently
dropped. -/
theorem orphan_column_dropped_counterexample :
    (∃ c ∈ c1Snapshot.columns,
      ∀ e ∈ c1Snapshot.tables ++ c1Snapshot.views ++ c1Snapshot.materializedViews,
        ¬ c.table_id = e.id) ∧
      (apply c1Snapshot).isSome = true ∧
      apply c1Snapshot = apply c1SnapshotNoOrphan := by
  refine ⟨⟨c1OrphanColumn, by decide, by decide⟩, by decide, by decide⟩
